import Mathlib

/-
  Shallow embedding of `rust-libp2p-nmessage` (src/src/lib.rs).

  The crate implements a libp2p `ProtocolsHandler` (the per-connection
  "Connection Executor", `Handler`) and a `NetworkBehaviour` (the
  "Peer Coordinator", `Behaviour`).  Protocol functions are one-shot
  closures producing a boxed future; we model a future as a fuel counter
  plus the final result (each poll consumes one unit of fuel, the future
  is ready when the fuel is exhausted).  Rust panics are modelled as
  `Except.error` with the panic message from the source.  `VecDeque` is
  a `List` (head = front), `HashMap<PeerId, Vec<Multiaddr>>` is an
  association list with unique keys.
-/

namespace NMessage

/-- Rust `Result<T, E>`. -/
inductive RustResult (T E : Type) : Type where
  | ok (val : T)
  | err (e : E)
deriving DecidableEq

/-- Model of `BoxFuture<'static, Result<T, E>>` (`type Protocol<T, E>` in the
source): a deterministic future that returns `Poll::Pending` for `fuel` many
polls and then resolves to `result`. -/
structure Protocol (T E : Type) : Type where
  fuel : Nat
  result : RustResult T E
deriving DecidableEq

/-- Model of `NegotiatedSubstream` wrapped as `InboundSubstream`. -/
structure InboundSubstream : Type where
  stream : Nat
deriving DecidableEq

/-- Model of `NegotiatedSubstream` wrapped as `OutboundSubstream`. -/
structure OutboundSubstream : Type where
  stream : Nat
deriving DecidableEq

/-- `type InboundProtocolFn<I, E> = Box<dyn FnOnce(InboundSubstream) -> Protocol<I, E>>`. -/
def InboundProtocolFn (I E : Type) : Type := InboundSubstream → Protocol I E

/-- `type OutboundProtocolFn<O, E> = Box<dyn FnOnce(OutboundSubstream) -> Protocol<O, E>>`. -/
def OutboundProtocolFn (O E : Type) : Type := OutboundSubstream → Protocol O E

/-- `enum InboundProtocolState<T, E>` from the source. -/
inductive InboundProtocolState (I E : Type) : Type where
  | gotFunctionNeedSubstream (protocolFn : InboundProtocolFn I E)
  | gotSubstreamNeedFunction (substream : InboundSubstream)
  | executing (protocol : Protocol I E)

/-- `enum OutboundProtocolState<T, E>` from the source. -/
inductive OutboundProtocolState (O E : Type) : Type where
  | gotFunctionNeedSubstream (protocolFn : OutboundProtocolFn O E)
  | gotFunctionRequestedSubstream (protocolFn : OutboundProtocolFn O E)
  | executing (protocol : Protocol O E)

/-- `enum ProtocolState<I, O, E>` from the source (the single execution slot). -/
inductive ProtocolState (I O E : Type) : Type where
  | none
  | inbound (st : InboundProtocolState I E)
  | outbound (st : OutboundProtocolState O E)
  | done
  | poisoned

/-- `struct Handler` — the Connection Executor: the slot state plus the
protocol info bytes. -/
structure Handler (I O E : Type) : Type where
  state : ProtocolState I O E
  info : List Nat

/-- `Handler::new`. -/
def Handler.new (I O E : Type) (info : List Nat) : Handler I O E :=
  { state := ProtocolState.none, info := info }

/-- `enum ProtocolInEvent<I, O, E>` — an Execution Request sent to a handler. -/
inductive ProtocolInEvent (I O E : Type) : Type where
  | executeInbound (protocolFn : InboundProtocolFn I E)
  | executeOutbound (protocolFn : OutboundProtocolFn O E)

/-- `enum ProtocolOutEvent<I, O, E>` — the outcome a handler reports. -/
inductive ProtocolOutEvent (I O E : Type) : Type where
  | inbound (res : RustResult I E)
  | outbound (res : RustResult O E)

/-- `Handler::inject_fully_negotiated_inbound`.  A Rust panic is modelled as
`Except.error` carrying the panic message. -/
def Handler.injectFullyNegotiatedInbound (h : Handler I O E)
    (substream : InboundSubstream) : Except String (Handler I O E) :=
  match h.state with
  | ProtocolState.none =>
      Except.ok { h with state :=
        ProtocolState.inbound (InboundProtocolState.gotSubstreamNeedFunction substream) }
  | ProtocolState.inbound (InboundProtocolState.gotFunctionNeedSubstream protocolFn) =>
      Except.ok { h with state :=
        ProtocolState.inbound (InboundProtocolState.executing (protocolFn substream)) }
  | ProtocolState.inbound _ =>
      Except.error "Illegal state, substream is already present."
  | ProtocolState.done =>
      Except.error "Illegal state, substream is already present."
  | ProtocolState.outbound _ =>
      Except.error "Failed to process inbound substream in outbound protocol."
  | ProtocolState.poisoned =>
      Except.error "Illegal state, currently in transient state poisoned."

/-- `Handler::inject_fully_negotiated_outbound`. -/
def Handler.injectFullyNegotiatedOutbound (h : Handler I O E)
    (substream : OutboundSubstream) : Except String (Handler I O E) :=
  match h.state with
  | ProtocolState.outbound (OutboundProtocolState.gotFunctionRequestedSubstream protocolFn) =>
      Except.ok { h with state :=
        ProtocolState.outbound (OutboundProtocolState.executing (protocolFn substream)) }
  | ProtocolState.none =>
      Except.error "Illegal state, receiving substream means it was requested."
  | ProtocolState.outbound (OutboundProtocolState.gotFunctionNeedSubstream _) =>
      Except.error "Illegal state, receiving substream means it was requested."
  | ProtocolState.outbound _ =>
      Except.error "Illegal state, substream is already present."
  | ProtocolState.done =>
      Except.error "Illegal state, substream is already present."
  | ProtocolState.inbound _ =>
      Except.error "Failed to process outbound substream in inbound protocol."
  | ProtocolState.poisoned =>
      Except.error "Illegal state, currently in transient state poisoned."

/-- `Handler::inject_event` — submit an Execution Request to the handler. -/
def Handler.injectEvent (h : Handler I O E) (event : ProtocolInEvent I O E) :
    Except String (Handler I O E) :=
  match event with
  | ProtocolInEvent.executeInbound protocolFn =>
      match h.state with
      | ProtocolState.none =>
          Except.ok { h with state :=
            ProtocolState.inbound (InboundProtocolState.gotFunctionNeedSubstream protocolFn) }
      | ProtocolState.inbound (InboundProtocolState.gotSubstreamNeedFunction substream) =>
          Except.ok { h with state :=
            ProtocolState.inbound (InboundProtocolState.executing (protocolFn substream)) }
      | ProtocolState.inbound _ =>
          Except.error "Illegal state, protocol fn is already present."
      | ProtocolState.done =>
          Except.error "Illegal state, protocol fn is already present."
      | ProtocolState.outbound _ =>
          Except.error "Failed to process inbound protocol fn in outbound protocol."
      | ProtocolState.poisoned =>
          Except.error "Illegal state, currently in transient state poisoned."
  | ProtocolInEvent.executeOutbound protocolFn =>
      match h.state with
      | ProtocolState.none =>
          Except.ok { h with state :=
            ProtocolState.outbound (OutboundProtocolState.gotFunctionNeedSubstream protocolFn) }
      | ProtocolState.outbound _ =>
          Except.error "Illegal state, protocol fn is already present."
      | ProtocolState.done =>
          Except.error "Illegal state, protocol fn is already present."
      | ProtocolState.inbound _ =>
          Except.error "Failed to process outbound protocol fn in inbound protocol."
      | ProtocolState.poisoned =>
          Except.error "Illegal state, currently in transient state poisoned."

/-- `Handler::inject_dial_upgrade_error` — the source body is only
`log::error!("Failed to upgrade: {}", err);`: the state is not touched, no
outcome is recorded. -/
def Handler.injectDialUpgradeError (h : Handler I O E) : Handler I O E :=
  h

/-- The three things `Handler::poll` can yield: a `Custom` out event,
an `OutboundSubstreamRequest` (carrying the protocol info), or `Pending`. -/
inductive HandlerPollResult (I O E : Type) : Type where
  | custom (event : ProtocolOutEvent I O E)
  | outboundSubstreamRequest (info : List Nat)
  | pending

/-- `Handler::poll`.  Polling an in-flight protocol future consumes one unit
of fuel (`Poll::Pending`) or resolves it (`Poll::Ready`). -/
def Handler.poll (h : Handler I O E) :
    Except String (HandlerPollResult I O E × Handler I O E) :=
  match h.state with
  | ProtocolState.inbound (InboundProtocolState.executing protocol) =>
      match protocol.fuel with
      | 0 =>
          Except.ok (HandlerPollResult.custom (ProtocolOutEvent.inbound protocol.result),
            { h with state := ProtocolState.done })
      | Nat.succ n =>
          Except.ok (HandlerPollResult.pending,
            { h with state := (ProtocolState.inbound
              (InboundProtocolState.executing { fuel := n, result := protocol.result })) })
  | ProtocolState.outbound (OutboundProtocolState.executing protocol) =>
      match protocol.fuel with
      | 0 =>
          Except.ok (HandlerPollResult.custom (ProtocolOutEvent.outbound protocol.result),
            { h with state := ProtocolState.done })
      | Nat.succ n =>
          Except.ok (HandlerPollResult.pending,
            { h with state := (ProtocolState.outbound
              (OutboundProtocolState.executing { fuel := n, result := protocol.result })) })
  | ProtocolState.outbound (OutboundProtocolState.gotFunctionNeedSubstream protocolFn) =>
      Except.ok (HandlerPollResult.outboundSubstreamRequest h.info,
        { h with state := (ProtocolState.outbound
          (OutboundProtocolState.gotFunctionRequestedSubstream protocolFn)) })
  | ProtocolState.poisoned =>
      Except.error "Protocol is poisoned (transient state)"
  | _ =>
      Except.ok (HandlerPollResult.pending, h)

/-- Iterated `Handler::poll`: the list of yielded results and the final
handler after `n` consecutive polls. -/
def Handler.pollIter (h : Handler I O E) :
    Nat → Except String (List (HandlerPollResult I O E) × Handler I O E)
  | 0 => Except.ok ([], h)
  | Nat.succ n =>
      match h.poll with
      | Except.error e => Except.error e
      | Except.ok (r, h') =>
          match h'.pollIter n with
          | Except.error e => Except.error e
          | Except.ok (rs, h'') => Except.ok (r :: rs, h'')

/-- Whether a poll result is a `Custom` event (an outcome delivered upward). -/
def HandlerPollResult.isCustom : HandlerPollResult I O E → Bool
  | HandlerPollResult.custom _ => true
  | _ => false

/-- Whether a poll result is an `OutboundSubstreamRequest`. -/
def HandlerPollResult.isSubstreamRequest : HandlerPollResult I O E → Bool
  | HandlerPollResult.outboundSubstreamRequest _ => true
  | _ => false

/-- Number of `Custom` events (delivered outcomes) in a list of poll results. -/
def countCustom (rs : List (HandlerPollResult I O E)) : Nat :=
  (rs.filter HandlerPollResult.isCustom).length

/-- Number of in-flight (`Executing`) protocol executions a slot state holds. -/
def ProtocolState.executingCount : ProtocolState I O E → Nat
  | ProtocolState.inbound (InboundProtocolState.executing _) => 1
  | ProtocolState.outbound (OutboundProtocolState.executing _) => 1
  | _ => 0

/-- The slot holds an inbound Execution Request that is pending (function
parked, waiting for a substream) or executing. -/
def ProtocolState.holdsInboundRequest : ProtocolState I O E → Bool
  | ProtocolState.inbound (InboundProtocolState.gotFunctionNeedSubstream _) => true
  | ProtocolState.inbound (InboundProtocolState.executing _) => true
  | _ => false

/-- The slot holds an outbound Execution Request that is pending or
executing (every outbound state holds the request). -/
def ProtocolState.holdsOutboundRequest : ProtocolState I O E → Bool
  | ProtocolState.outbound _ => true
  | _ => false

/-- The slot holds inbound work (request, substream or execution). -/
def ProtocolState.holdsInboundWork : ProtocolState I O E → Bool
  | ProtocolState.inbound _ => true
  | _ => false

/-- The slot holds outbound work (request or execution). -/
def ProtocolState.holdsOutboundWork : ProtocolState I O E → Bool
  | ProtocolState.outbound _ => true
  | _ => false

/-- The slot is `Done`. -/
def ProtocolState.isDone : ProtocolState I O E → Bool
  | ProtocolState.done => true
  | _ => false

/-- `PeerId` modelled as an opaque natural number. -/
abbrev PeerId : Type := Nat

/-- `Multiaddr` modelled as an opaque natural number. -/
abbrev Multiaddr : Type := Nat

/-- `HashMap<PeerId, Vec<Multiaddr>>` as an association list with unique
keys; `HashMap::get`. -/
def lookupEntry : List (PeerId × List Multiaddr) → PeerId → Option (List Multiaddr)
  | [], _ => Option.none
  | (k, v) :: rest, p => if k = p then Option.some v else lookupEntry rest p

/-- `HashMap::contains_key`. -/
def containsKey (m : List (PeerId × List Multiaddr)) (p : PeerId) : Bool :=
  (lookupEntry m p).isSome

/-- `map.entry(p).or_default()` followed by an in-place mutation `f` of the
address vector: if the key is present its value is updated by `f`, otherwise
the entry `(p, f [])` is inserted. -/
def modifyEntryOrDefault (m : List (PeerId × List Multiaddr)) (p : PeerId)
    (f : List Multiaddr → List Multiaddr) : List (PeerId × List Multiaddr) :=
  match m with
  | [] => [(p, f [])]
  | (k, v) :: rest =>
      if k = p then (k, f v) :: rest else (k, v) :: modifyEntryOrDefault rest p f

/-- `struct Behaviour` — the Peer Coordinator: pending-requests queue,
outbound-results queue, connected-peers map, protocol info. -/
structure Behaviour (I O E : Type) : Type where
  protocolInEvents : List (PeerId × ProtocolInEvent I O E)
  protocolOutEvents : List (PeerId × ProtocolOutEvent I O E)
  connectedPeers : List (PeerId × List Multiaddr)
  info : List Nat

/-- `Behaviour::new`. -/
def Behaviour.new (I O E : Type) (info : List Nat) : Behaviour I O E :=
  { protocolInEvents := [], protocolOutEvents := [], connectedPeers := [], info := info }

/-- `Behaviour::do_protocol_listener` — enqueue an inbound Execution Request. -/
def Behaviour.doProtocolListener (b : Behaviour I O E) (peer : PeerId)
    (protocolFn : InboundProtocolFn I E) : Behaviour I O E :=
  { b with protocolInEvents :=
      b.protocolInEvents ++ [(peer, ProtocolInEvent.executeInbound protocolFn)] }

/-- `Behaviour::do_protocol_dialer` — enqueue an outbound Execution Request. -/
def Behaviour.doProtocolDialer (b : Behaviour I O E) (peer : PeerId)
    (protocolFn : OutboundProtocolFn O E) : Behaviour I O E :=
  { b with protocolInEvents :=
      b.protocolInEvents ++ [(peer, ProtocolInEvent.executeOutbound protocolFn)] }

/-- `Behaviour::inject_connection_established` — append the remote address to
the peer's entry (created empty if absent). -/
def Behaviour.injectConnectionEstablished (b : Behaviour I O E) (peer : PeerId)
    (multiaddr : Multiaddr) : Behaviour I O E :=
  { b with connectedPeers :=
      modifyEntryOrDefault b.connectedPeers peer (fun v => v ++ [multiaddr]) }

/-- `Behaviour::inject_connection_closed` — `retain(|addr| addr != multiaddr)`
on the peer's entry (created empty if absent). -/
def Behaviour.injectConnectionClosed (b : Behaviour I O E) (peer : PeerId)
    (multiaddr : Multiaddr) : Behaviour I O E :=
  { b with connectedPeers :=
      modifyEntryOrDefault b.connectedPeers peer (fun v => v.filter (fun a => a ≠ multiaddr)) }

/-- `Behaviour::addresses_of_peer`. -/
def Behaviour.addressesOfPeer (b : Behaviour I O E) (peer : PeerId) : List Multiaddr :=
  (lookupEntry b.connectedPeers peer).getD []

/-- `Behaviour::inject_event` — push a handler outcome onto the
outbound-results queue. -/
def Behaviour.injectEvent (b : Behaviour I O E) (peer : PeerId)
    (event : ProtocolOutEvent I O E) : Behaviour I O E :=
  { b with protocolOutEvents := b.protocolOutEvents ++ [(peer, event)] }

/-- `enum BehaviourOutEvent` — peer-addressed outcome events. -/
inductive BehaviourOutEvent (I O E : Type) : Type where
  | inbound (peer : PeerId) (res : RustResult I E)
  | outbound (peer : PeerId) (res : RustResult O E)

/-- The `NetworkBehaviourAction`s `Behaviour::poll` can yield: notify a
peer's handler with an in-event, or generate an application event. -/
inductive NetworkBehaviourAction (I O E : Type) : Type where
  | notifyHandler (peer : PeerId) (event : ProtocolInEvent I O E)
  | generateEvent (event : BehaviourOutEvent I O E)

/-- The second half of `Behaviour::poll`: pop the head of the
outbound-results queue, if any, and turn it into a peer-addressed event. -/
def Behaviour.pollOutEvents (b : Behaviour I O E) :
    Option (NetworkBehaviourAction I O E) × Behaviour I O E :=
  match b.protocolOutEvents with
  | (peer, ProtocolOutEvent.inbound res) :: rest =>
      (Option.some (NetworkBehaviourAction.generateEvent (BehaviourOutEvent.inbound peer res)),
        { b with protocolOutEvents := rest })
  | (peer, ProtocolOutEvent.outbound res) :: rest =>
      (Option.some (NetworkBehaviourAction.generateEvent (BehaviourOutEvent.outbound peer res)),
        { b with protocolOutEvents := rest })
  | [] => (Option.none, b)

/-- `Behaviour::poll`: pop the head of the pending-requests queue; if its
peer's key is absent from `connected_peers`, re-enqueue it at the tail and
fall through to the outbound-results queue; if present, yield
`NotifyHandler`.  `Poll::Pending` is the `Option.none` action. -/
def Behaviour.poll (b : Behaviour I O E) :
    Option (NetworkBehaviourAction I O E) × Behaviour I O E :=
  match b.protocolInEvents with
  | (peer, event) :: rest =>
      if containsKey b.connectedPeers peer then
        (Option.some (NetworkBehaviourAction.notifyHandler peer event),
          { b with protocolInEvents := rest })
      else
        Behaviour.pollOutEvents { b with protocolInEvents := rest ++ [(peer, event)] }
  | [] => Behaviour.pollOutEvents b

/-- The operations the environment can perform on a `Behaviour` (trace
alphabet for the Peer Coordinator). -/
inductive BehaviourOp (I O E : Type) : Type where
  | doProtocolListener (peer : PeerId) (protocolFn : InboundProtocolFn I E)
  | doProtocolDialer (peer : PeerId) (protocolFn : OutboundProtocolFn O E)
  | connectionEstablished (peer : PeerId) (multiaddr : Multiaddr)
  | connectionClosed (peer : PeerId) (multiaddr : Multiaddr)
  | handlerEvent (peer : PeerId) (event : ProtocolOutEvent I O E)
  | poll

/-- One step of the Peer Coordinator under an operation (for `poll`, the
yielded action is discarded and the updated state kept). -/
def Behaviour.step (b : Behaviour I O E) : BehaviourOp I O E → Behaviour I O E
  | BehaviourOp.doProtocolListener peer protocolFn => b.doProtocolListener peer protocolFn
  | BehaviourOp.doProtocolDialer peer protocolFn => b.doProtocolDialer peer protocolFn
  | BehaviourOp.connectionEstablished peer multiaddr =>
      b.injectConnectionEstablished peer multiaddr
  | BehaviourOp.connectionClosed peer multiaddr => b.injectConnectionClosed peer multiaddr
  | BehaviourOp.handlerEvent peer event => b.injectEvent peer event
  | BehaviourOp.poll => (Behaviour.poll b).2

/-- Run a list of operations from a starting state. -/
def Behaviour.run (b : Behaviour I O E) : List (BehaviourOp I O E) → Behaviour I O E
  | [] => b
  | op :: ops => Behaviour.run (b.step op) ops

/-- Whether an operation is a connectivity notification (connection
established or closed) concerning peer `p`. -/
def BehaviourOp.notifiesPeer : BehaviourOp I O E → PeerId → Bool
  | BehaviourOp.connectionEstablished q _, p => q = p
  | BehaviourOp.connectionClosed q _, p => q = p
  | _, _ => false

/-- Whether a poll action is a dispatch (`NotifyHandler`) to peer `p`. -/
def actionNotifies : Option (NetworkBehaviourAction I O E) → PeerId → Bool
  | Option.some (NetworkBehaviourAction.notifyHandler q _), p => q = p
  | _, _ => false

/-- Whether a poll action is a dispatch of an outbound Execution Request. -/
def actionDispatchesOutbound : Option (NetworkBehaviourAction I O E) → Bool
  | Option.some (NetworkBehaviourAction.notifyHandler _ (ProtocolInEvent.executeOutbound _)) =>
      true
  | _ => false

/-- Whether a poll action is a dispatch of an inbound Execution Request. -/
def actionDispatchesInbound : Option (NetworkBehaviourAction I O E) → Bool
  | Option.some (NetworkBehaviourAction.notifyHandler _ (ProtocolInEvent.executeInbound _)) =>
      true
  | _ => false

/-- The conversion `Behaviour::poll` applies to a queued outcome: a
`ProtocolOutEvent` tagged with its peer becomes a `BehaviourOutEvent`. -/
def toBehaviourOutEvent (p : PeerId) : ProtocolOutEvent I O E → BehaviourOutEvent I O E
  | ProtocolOutEvent.inbound res => BehaviourOutEvent.inbound p res
  | ProtocolOutEvent.outbound res => BehaviourOutEvent.outbound p res

/-! Helper lemmas. -/

theorem pollIter_of_fixpoint {I O E : Type} (h : Handler I O E)
    (hp : h.poll = Except.ok (HandlerPollResult.pending, h)) :
    ∀ n, h.pollIter n =
      Except.ok (List.replicate n HandlerPollResult.pending, h) := by
  intro n
  induction n with
  | zero => simp [Handler.pollIter]
  | succ n ih => simp [Handler.pollIter, hp, ih, List.replicate]

theorem poll_done {I O E : Type} (h : Handler I O E)
    (hs : h.state = ProtocolState.done) :
    h.poll = Except.ok (HandlerPollResult.pending, h) := by
  simp [Handler.poll, hs]

theorem lookup_modifyEntryOrDefault_self (m : List (PeerId × List Multiaddr))
    (p : PeerId) (f : List Multiaddr → List Multiaddr) :
    lookupEntry (modifyEntryOrDefault m p f) p =
      Option.some (f ((lookupEntry m p).getD [])) := by
  induction m with
  | nil => simp [modifyEntryOrDefault, lookupEntry]
  | cons kv rest ih =>
      obtain ⟨k, v⟩ := kv
      by_cases hk : k = p
      · subst hk
        simp [modifyEntryOrDefault, lookupEntry]
      · simp [modifyEntryOrDefault, lookupEntry, hk, ih]

theorem lookup_modifyEntryOrDefault_other (m : List (PeerId × List Multiaddr))
    (p q : PeerId) (f : List Multiaddr → List Multiaddr) (hpq : p ≠ q) :
    lookupEntry (modifyEntryOrDefault m p f) q = lookupEntry m q := by
  induction m with
  | nil => simp [modifyEntryOrDefault, lookupEntry, hpq]
  | cons kv rest ih =>
      obtain ⟨k, v⟩ := kv
      by_cases hk : k = p
      · subst hk
        simp [modifyEntryOrDefault, lookupEntry, hpq]
      · simp [modifyEntryOrDefault, lookupEntry, hk, ih]

theorem containsKey_modifyEntryOrDefault (m : List (PeerId × List Multiaddr))
    (p q : PeerId) (f : List Multiaddr → List Multiaddr) :
    containsKey (modifyEntryOrDefault m p f) q =
      (containsKey m q || decide (p = q)) := by
  by_cases hpq : p = q
  · subst hpq
    simp [containsKey, lookup_modifyEntryOrDefault_self]
  · simp [containsKey, lookup_modifyEntryOrDefault_other m p q f hpq, hpq]

theorem handler_eta {I O E : Type} (h : Handler I O E) (s : ProtocolState I O E)
    (hs : h.state = s) : ({ h with state := s } : Handler I O E) = h := by
  cases hs
  rfl

theorem pollIter_succ_of_poll {I O E : Type} (h h' h'' : Handler I O E)
    (r : HandlerPollResult I O E) (rs : List (HandlerPollResult I O E)) (n : Nat)
    (hp : h.poll = Except.ok (r, h')) (hi : h'.pollIter n = Except.ok (rs, h'')) :
    h.pollIter (n + 1) = Except.ok (r :: rs, h'') := by
  simp [Handler.pollIter, hp, hi]

theorem pollIter_add {I O E : Type} :
    ∀ (a : Nat) (h h' h'' : Handler I O E) (rs rs' : List (HandlerPollResult I O E))
      (b : Nat), h.pollIter a = Except.ok (rs, h') →
      h'.pollIter b = Except.ok (rs', h'') →
      h.pollIter (a + b) = Except.ok (rs ++ rs', h'') := by
  intro a
  induction a with
  | zero =>
      intro h h' h'' rs rs' b h1 h2
      simp [Handler.pollIter] at h1
      obtain ⟨hrs, hh⟩ := h1
      subst hrs
      subst hh
      simpa using h2
  | succ a ih =>
      intro h h' h'' rs rs' b h1 h2
      rw [Nat.succ_add]
      cases hp : h.poll with
      | error e =>
          simp [Handler.pollIter, hp] at h1
      | ok pr =>
          obtain ⟨r0, h0⟩ := pr
          cases hi : h0.pollIter a with
          | error e =>
              simp [Handler.pollIter, hp, hi] at h1
          | ok pr2 =>
              obtain ⟨rs0, hfin⟩ := pr2
              simp [Handler.pollIter, hp, hi] at h1
              obtain ⟨hrs, hh⟩ := h1
              subst hrs
              subst hh
              exact pollIter_succ_of_poll h h0 h'' r0 (rs0 ++ rs') (a + b) hp
                (ih h0 hfin h'' rs0 rs' b hi h2)

theorem pollIter_executing_inbound {I O E : Type} :
    ∀ (n fl : Nat) (r : RustResult I E) (h : Handler I O E),
      h.state = ProtocolState.inbound (InboundProtocolState.executing ⟨fl, r⟩) →
      n ≤ fl →
      h.pollIter n = Except.ok (List.replicate n HandlerPollResult.pending,
        ({ h with state :=
          (ProtocolState.inbound (InboundProtocolState.executing ⟨fl - n, r⟩)) } :
          Handler I O E)) := by
  intro n
  induction n with
  | zero =>
      intro fl r h hs _
      simp [Handler.pollIter, Nat.sub_zero, handler_eta h _ hs]
  | succ n ih =>
      intro fl r h hs hn
      cases fl with
      | zero => exact absurd hn (by omega)
      | succ fl' =>
          have hp : h.poll = Except.ok (HandlerPollResult.pending,
              ({ h with state :=
                (ProtocolState.inbound (InboundProtocolState.executing ⟨fl', r⟩)) } :
                Handler I O E)) := by
            simp [Handler.poll, hs]
          have ih' := ih fl' r
            ({ h with state :=
              (ProtocolState.inbound (InboundProtocolState.executing ⟨fl', r⟩)) } :
              Handler I O E) rfl (by omega)
          have := pollIter_succ_of_poll h _ _ _ _ n hp ih'
          simpa [List.replicate_succ, Nat.succ_sub_succ] using this

theorem pollIter_executing_outbound {I O E : Type} :
    ∀ (n fl : Nat) (r : RustResult O E) (h : Handler I O E),
      h.state = ProtocolState.outbound (OutboundProtocolState.executing ⟨fl, r⟩) →
      n ≤ fl →
      h.pollIter n = Except.ok (List.replicate n HandlerPollResult.pending,
        ({ h with state :=
          (ProtocolState.outbound (OutboundProtocolState.executing ⟨fl - n, r⟩)) } :
          Handler I O E)) := by
  intro n
  induction n with
  | zero =>
      intro fl r h hs _
      simp [Handler.pollIter, Nat.sub_zero, handler_eta h _ hs]
  | succ n ih =>
      intro fl r h hs hn
      cases fl with
      | zero => exact absurd hn (by omega)
      | succ fl' =>
          have hp : h.poll = Except.ok (HandlerPollResult.pending,
              ({ h with state :=
                (ProtocolState.outbound (OutboundProtocolState.executing ⟨fl', r⟩)) } :
                Handler I O E)) := by
            simp [Handler.poll, hs]
          have ih' := ih fl' r
            ({ h with state :=
              (ProtocolState.outbound (OutboundProtocolState.executing ⟨fl', r⟩)) } :
              Handler I O E) rfl (by omega)
          have := pollIter_succ_of_poll h _ _ _ _ n hp ih'
          simpa [List.replicate_succ, Nat.succ_sub_succ] using this

theorem countCustom_replicate_pending {I O E : Type} (n : Nat) :
    countCustom (List.replicate n (HandlerPollResult.pending : HandlerPollResult I O E)) = 0 := by
  induction n with
  | zero => rfl
  | succ n ih =>
      simp [countCustom, List.replicate_succ, List.filter_cons,
        HandlerPollResult.isCustom] at ih ⊢

theorem countCustom_once {I O E : Type} (e : ProtocolOutEvent I O E) (a b : Nat) :
    countCustom (List.replicate a HandlerPollResult.pending ++
      HandlerPollResult.custom e :: List.replicate b HandlerPollResult.pending) = 1 := by
  have hb := countCustom_replicate_pending (I := I) (O := O) (E := E) b
  induction a with
  | zero =>
      simp [countCustom, List.filter_cons, HandlerPollResult.isCustom] at hb ⊢
  | succ a ih =>
      simp [countCustom, List.replicate_succ, List.filter_cons,
        HandlerPollResult.isCustom] at ih ⊢

/-- C3: at most one execution is in the Executing state at any time, and
submitting a second Execution Request of the same direction while a request
of that direction is already pending or executing fails loudly (the source
panics) rather than silently overwriting the first. -/
theorem claim_C3 (I O E : Type) (h : Handler I O E)
    (f : InboundProtocolFn I E) (g : OutboundProtocolFn O E) :
    (∀ s : ProtocolState I O E, s.executingCount ≤ 1) ∧
    (h.state.holdsInboundRequest = true →
      ∃ msg, h.injectEvent (ProtocolInEvent.executeInbound f) = Except.error msg) ∧
    (h.state.holdsOutboundRequest = true →
      ∃ msg, h.injectEvent (ProtocolInEvent.executeOutbound g) = Except.error msg) := by
  refine ⟨?_, ?_, ?_⟩
  · intro s
    rcases s with _ | ist | ost | _ | _
    · simp [ProtocolState.executingCount]
    · rcases ist with _ | _ | _ <;> simp [ProtocolState.executingCount]
    · rcases ost with _ | _ | _ <;> simp [ProtocolState.executingCount]
    · simp [ProtocolState.executingCount]
    · simp [ProtocolState.executingCount]
  · intro hreq
    obtain ⟨st, info⟩ := h
    rcases st with _ | ist | ost | _ | _
    · simp [ProtocolState.holdsInboundRequest] at hreq
    · rcases ist with fn | ss | pr
      · exact ⟨_, rfl⟩
      · simp [ProtocolState.holdsInboundRequest] at hreq
      · exact ⟨_, rfl⟩
    · simp [ProtocolState.holdsInboundRequest] at hreq
    · simp [ProtocolState.holdsInboundRequest] at hreq
    · simp [ProtocolState.holdsInboundRequest] at hreq
  · intro hreq
    obtain ⟨st, info⟩ := h
    rcases st with _ | ist | ost | _ | _
    · simp [ProtocolState.holdsOutboundRequest] at hreq
    · simp [ProtocolState.holdsOutboundRequest] at hreq
    · exact ⟨_, rfl⟩
    · simp [ProtocolState.holdsOutboundRequest] at hreq
    · simp [ProtocolState.holdsOutboundRequest] at hreq

/-- Witness for C3: a concrete handler executing an inbound protocol rejects
a duplicate inbound submit, and one executing an outbound protocol rejects a
duplicate outbound submit. -/
theorem claim_C3_witness :
    (∃ msg, Handler.injectEvent
      (Handler.mk (ProtocolState.inbound (InboundProtocolState.executing
        ⟨0, RustResult.ok 0⟩)) [] : Handler Nat Nat Nat)
      (ProtocolInEvent.executeInbound (fun _ => ⟨0, RustResult.ok 0⟩)) =
        Except.error msg) ∧
    (∃ msg, Handler.injectEvent
      (Handler.mk (ProtocolState.outbound (OutboundProtocolState.executing
        ⟨0, RustResult.ok 0⟩)) [] : Handler Nat Nat Nat)
      (ProtocolInEvent.executeOutbound (fun _ => ⟨0, RustResult.ok 0⟩)) =
        Except.error msg) :=
  ⟨(claim_C3 Nat Nat Nat _ (fun _ => ⟨0, RustResult.ok 0⟩)
      (fun _ => ⟨0, RustResult.ok 0⟩)).2.1 rfl,
   (claim_C3 Nat Nat Nat _ (fun _ => ⟨0, RustResult.ok 0⟩)
      (fun _ => ⟨0, RustResult.ok 0⟩)).2.2 rfl⟩

/-- C9 (implicit): exclusivity across directions — submitting a request or
delivering a substream of one direction while the slot holds work of the
opposite direction (or is Done) is a fatal error, and the single slot never
holds inbound and outbound work simultaneously. -/
theorem claim_C9 (I O E : Type) (h : Handler I O E)
    (f : InboundProtocolFn I E) (g : OutboundProtocolFn O E)
    (si : InboundSubstream) (so : OutboundSubstream) :
    (∀ s : ProtocolState I O E,
      ¬(s.holdsInboundWork = true ∧ s.holdsOutboundWork = true)) ∧
    (h.state.holdsOutboundWork = true ∨ h.state.isDone = true →
      (∃ m, h.injectEvent (ProtocolInEvent.executeInbound f) = Except.error m) ∧
      (∃ m, h.injectFullyNegotiatedInbound si = Except.error m)) ∧
    (h.state.holdsInboundWork = true ∨ h.state.isDone = true →
      (∃ m, h.injectEvent (ProtocolInEvent.executeOutbound g) = Except.error m) ∧
      (∃ m, h.injectFullyNegotiatedOutbound so = Except.error m)) := by
  refine ⟨?_, ?_, ?_⟩
  · intro s hcontra
    rcases s with _ | ist | ost | _ | _ <;>
      simp [ProtocolState.holdsInboundWork, ProtocolState.holdsOutboundWork] at hcontra
  · intro hcase
    obtain ⟨st, info⟩ := h
    rcases st with _ | ist | ost | _ | _
    · simp [ProtocolState.holdsOutboundWork, ProtocolState.isDone] at hcase
    · simp [ProtocolState.holdsOutboundWork, ProtocolState.isDone] at hcase
    · exact ⟨⟨_, rfl⟩, ⟨_, rfl⟩⟩
    · exact ⟨⟨_, rfl⟩, ⟨_, rfl⟩⟩
    · simp [ProtocolState.holdsOutboundWork, ProtocolState.isDone] at hcase
  · intro hcase
    obtain ⟨st, info⟩ := h
    rcases st with _ | ist | ost | _ | _
    · simp [ProtocolState.holdsInboundWork, ProtocolState.isDone] at hcase
    · exact ⟨⟨_, rfl⟩, ⟨_, rfl⟩⟩
    · simp [ProtocolState.holdsInboundWork, ProtocolState.isDone] at hcase
    · exact ⟨⟨_, rfl⟩, ⟨_, rfl⟩⟩
    · simp [ProtocolState.holdsInboundWork, ProtocolState.isDone] at hcase

/-- Witness for C9: a handler holding an outbound request rejects an inbound
submit and an inbound substream; a handler holding an inbound substream
rejects an outbound submit and an outbound substream. -/
theorem claim_C9_witness :
    ((∃ m, Handler.injectEvent
        (Handler.mk (ProtocolState.outbound (OutboundProtocolState.gotFunctionNeedSubstream
          (fun _ => ⟨0, RustResult.ok 0⟩))) [] : Handler Nat Nat Nat)
        (ProtocolInEvent.executeInbound (fun _ => ⟨0, RustResult.ok 0⟩)) =
          Except.error m) ∧
      (∃ m, Handler.injectFullyNegotiatedInbound
        (Handler.mk (ProtocolState.outbound (OutboundProtocolState.gotFunctionNeedSubstream
          (fun _ => ⟨0, RustResult.ok 0⟩))) [] : Handler Nat Nat Nat) ⟨5⟩ =
          Except.error m)) ∧
    ((∃ m, Handler.injectEvent
        (Handler.mk (ProtocolState.inbound (InboundProtocolState.gotSubstreamNeedFunction
          ⟨5⟩)) [] : Handler Nat Nat Nat)
        (ProtocolInEvent.executeOutbound (fun _ => ⟨0, RustResult.ok 0⟩)) =
          Except.error m) ∧
      (∃ m, Handler.injectFullyNegotiatedOutbound
        (Handler.mk (ProtocolState.inbound (InboundProtocolState.gotSubstreamNeedFunction
          ⟨5⟩)) [] : Handler Nat Nat Nat) ⟨6⟩ =
          Except.error m)) :=
  ⟨(claim_C9 Nat Nat Nat _ (fun _ => ⟨0, RustResult.ok 0⟩)
      (fun _ => ⟨0, RustResult.ok 0⟩) ⟨5⟩ ⟨6⟩).2.1 (Or.inl rfl),
   (claim_C9 Nat Nat Nat _ (fun _ => ⟨0, RustResult.ok 0⟩)
      (fun _ => ⟨0, RustResult.ok 0⟩) ⟨5⟩ ⟨6⟩).2.2 (Or.inl rfl)⟩

/-- C8: from Outbound GotFunctionNeedSubstream, the first poll yields exactly
one outbound-substream-request signal and moves to the requested state;
further polls before the substream arrives yield only Pending (never a second
request), and the later outbound substream is paired with the parked function
and execution begins. -/
theorem claim_C8 (I O E : Type) (h : Handler I O E) (f : OutboundProtocolFn O E)
    (hs : h.state =
      ProtocolState.outbound (OutboundProtocolState.gotFunctionNeedSubstream f)) :
    h.poll = Except.ok (HandlerPollResult.outboundSubstreamRequest h.info,
      ({ h with state :=
        (ProtocolState.outbound (OutboundProtocolState.gotFunctionRequestedSubstream f)) } :
        Handler I O E)) ∧
    (∀ n, Handler.pollIter
      ({ h with state :=
        (ProtocolState.outbound (OutboundProtocolState.gotFunctionRequestedSubstream f)) } :
        Handler I O E) n =
      Except.ok (List.replicate n HandlerPollResult.pending,
        ({ h with state :=
          (ProtocolState.outbound (OutboundProtocolState.gotFunctionRequestedSubstream f)) } :
          Handler I O E))) ∧
    (∀ s, Handler.injectFullyNegotiatedOutbound
      ({ h with state :=
        (ProtocolState.outbound (OutboundProtocolState.gotFunctionRequestedSubstream f)) } :
        Handler I O E) s =
      Except.ok ({ h with state :=
        (ProtocolState.outbound (OutboundProtocolState.executing (f s))) } :
        Handler I O E)) := by
  refine ⟨by simp [Handler.poll, hs], ?_, ?_⟩
  · intro n
    exact pollIter_of_fixpoint
      ({ h with state :=
        (ProtocolState.outbound (OutboundProtocolState.gotFunctionRequestedSubstream f)) } :
        Handler I O E) rfl n
  · intro s
    rfl

/-- Witness for C8: a concrete outbound-request handler emits the substream
request on its first poll. -/
theorem claim_C8_witness :
    Handler.poll (Handler.mk (ProtocolState.outbound
      (OutboundProtocolState.gotFunctionNeedSubstream
        (fun s => ⟨1, RustResult.ok s.stream⟩))) [7] : Handler Nat Nat Nat) =
    Except.ok (HandlerPollResult.outboundSubstreamRequest [7],
      Handler.mk (ProtocolState.outbound
        (OutboundProtocolState.gotFunctionRequestedSubstream
          (fun s => ⟨1, RustResult.ok s.stream⟩))) [7]) :=
  (claim_C8 Nat Nat Nat _ (fun s => ⟨1, RustResult.ok s.stream⟩) rfl).1

theorem pollOutEvents_cons {I O E : Type} (b : Behaviour I O E) (q : PeerId)
    (oe : ProtocolOutEvent I O E) (orest : List (PeerId × ProtocolOutEvent I O E))
    (h : b.protocolOutEvents = (q, oe) :: orest) :
    b.pollOutEvents = (Option.some (NetworkBehaviourAction.generateEvent
      (toBehaviourOutEvent q oe)), ({ b with protocolOutEvents := orest } : Behaviour I O E)) := by
  cases oe <;> simp [Behaviour.pollOutEvents, toBehaviourOutEvent, h]

theorem pollOutEvents_nil {I O E : Type} (b : Behaviour I O E)
    (h : b.protocolOutEvents = []) : b.pollOutEvents = (Option.none, b) := by
  simp [Behaviour.pollOutEvents, h]

theorem pollOutEvents_connectedPeers {I O E : Type} (b : Behaviour I O E) :
    b.pollOutEvents.2.connectedPeers = b.connectedPeers := by
  unfold Behaviour.pollOutEvents
  split <;> rfl

theorem pollOutEvents_protocolInEvents {I O E : Type} (b : Behaviour I O E) :
    b.pollOutEvents.2.protocolInEvents = b.protocolInEvents := by
  unfold Behaviour.pollOutEvents
  split <;> rfl

theorem pollOutEvents_no_notify {I O E : Type} (b : Behaviour I O E) (q : PeerId)
    (e : ProtocolInEvent I O E) :
    b.pollOutEvents.1 ≠ Option.some (NetworkBehaviourAction.notifyHandler q e) := by
  unfold Behaviour.pollOutEvents
  split <;> simp

theorem poll_dispatch {I O E : Type} (b : Behaviour I O E) (p : PeerId)
    (e : ProtocolInEvent I O E) (rest : List (PeerId × ProtocolInEvent I O E))
    (hin : b.protocolInEvents = (p, e) :: rest)
    (hk : containsKey b.connectedPeers p = true) :
    Behaviour.poll b = (Option.some (NetworkBehaviourAction.notifyHandler p e),
      ({ b with protocolInEvents := rest } : Behaviour I O E)) := by
  simp [Behaviour.poll, hin, hk]

theorem poll_requeue {I O E : Type} (b : Behaviour I O E) (p : PeerId)
    (e : ProtocolInEvent I O E) (rest : List (PeerId × ProtocolInEvent I O E))
    (hin : b.protocolInEvents = (p, e) :: rest)
    (hk : containsKey b.connectedPeers p = false) :
    Behaviour.poll b = Behaviour.pollOutEvents
      ({ b with protocolInEvents := rest ++ [(p, e)] } : Behaviour I O E) := by
  simp [Behaviour.poll, hin, hk]

theorem poll_empty_queue {I O E : Type} (b : Behaviour I O E)
    (hin : b.protocolInEvents = []) :
    Behaviour.poll b = Behaviour.pollOutEvents b := by
  simp [Behaviour.poll, hin]

theorem poll_connectedPeers {I O E : Type} (b : Behaviour I O E) :
    (Behaviour.poll b).2.connectedPeers = b.connectedPeers := by
  rcases hin : b.protocolInEvents with _ | ⟨⟨p0, e0⟩, rest⟩
  · rw [poll_empty_queue b hin, pollOutEvents_connectedPeers]
  · by_cases hk : containsKey b.connectedPeers p0 = true
    · rw [poll_dispatch b p0 e0 rest hin hk]
    · rw [poll_requeue b p0 e0 rest hin (Bool.not_eq_true _ ▸ hk),
        pollOutEvents_connectedPeers]

theorem poll_dispatch_requires_key {I O E : Type} (b : Behaviour I O E) (q : PeerId)
    (e : ProtocolInEvent I O E)
    (h : (Behaviour.poll b).1 =
      Option.some (NetworkBehaviourAction.notifyHandler q e)) :
    containsKey b.connectedPeers q = true := by
  rcases hin : b.protocolInEvents with _ | ⟨⟨p0, e0⟩, rest⟩
  · rw [poll_empty_queue b hin] at h
    exact absurd h (pollOutEvents_no_notify b q e)
  · by_cases hk : containsKey b.connectedPeers p0 = true
    · rw [poll_dispatch b p0 e0 rest hin hk] at h
      simp at h
      obtain ⟨hq, he⟩ := h
      subst hq
      exact hk
    · rw [poll_requeue b p0 e0 rest hin (Bool.not_eq_true _ ▸ hk)] at h
      exact absurd h (pollOutEvents_no_notify _ q e)

theorem step_connectedPeers_key {I O E : Type} (b : Behaviour I O E)
    (op : BehaviourOp I O E) (p : PeerId) :
    containsKey (b.step op).connectedPeers p =
      (containsKey b.connectedPeers p || op.notifiesPeer p) := by
  cases op with
  | doProtocolListener q f =>
      simp [Behaviour.step, Behaviour.doProtocolListener, BehaviourOp.notifiesPeer]
  | doProtocolDialer q f =>
      simp [Behaviour.step, Behaviour.doProtocolDialer, BehaviourOp.notifiesPeer]
  | connectionEstablished q a =>
      simp [Behaviour.step, Behaviour.injectConnectionEstablished,
        BehaviourOp.notifiesPeer, containsKey_modifyEntryOrDefault]
  | connectionClosed q a =>
      simp [Behaviour.step, Behaviour.injectConnectionClosed,
        BehaviourOp.notifiesPeer, containsKey_modifyEntryOrDefault]
  | handlerEvent q ev =>
      simp [Behaviour.step, Behaviour.injectEvent, BehaviourOp.notifiesPeer]
  | poll =>
      simp [Behaviour.step, poll_connectedPeers, BehaviourOp.notifiesPeer]

theorem run_key_mono {I O E : Type} :
    ∀ (ops : List (BehaviourOp I O E)) (b : Behaviour I O E) (p : PeerId),
      containsKey b.connectedPeers p = true →
      containsKey (b.run ops).connectedPeers p = true := by
  intro ops
  induction ops with
  | nil => intro b p hb; simpa [Behaviour.run] using hb
  | cons op ops ih =>
      intro b p hb
      have hstep : containsKey (b.step op).connectedPeers p = true := by
        rw [step_connectedPeers_key, hb]
        rfl
      simpa [Behaviour.run] using ih (b.step op) p hstep

theorem run_key_false {I O E : Type} :
    ∀ (ops : List (BehaviourOp I O E)) (b : Behaviour I O E) (p : PeerId),
      containsKey b.connectedPeers p = false →
      (∀ op ∈ ops, op.notifiesPeer p = false) →
      containsKey (b.run ops).connectedPeers p = false := by
  intro ops
  induction ops with
  | nil => intro b p hb _; simpa [Behaviour.run] using hb
  | cons op ops ih =>
      intro b p hb hops
      have hstep : containsKey (b.step op).connectedPeers p = false := by
        rw [step_connectedPeers_key, hb, hops op (List.mem_cons_self op ops)]
        rfl
      simpa [Behaviour.run] using
        ih (b.step op) p hstep (fun o ho => hops o (List.mem_cons_of_mem op ho))

/-- C5: an outcome is yielded by poll exactly once — polling a handler whose
in-flight protocol needs `fl` more polls yields `fl` Pendings, then the one
Custom outcome (transitioning to Done), then only Pendings; a Done handler
never re-yields anything; the yielded-outcome count of such a trace is one
and an all-Pending trace contains none. -/
theorem claim_C5 (I O E : Type) (h : Handler I O E) (fl : Nat)
    (ri : RustResult I E) (ro : RustResult O E) :
    (h.state = ProtocolState.inbound (InboundProtocolState.executing ⟨fl, ri⟩) →
      ∀ m, h.pollIter (fl + 1 + m) =
        Except.ok (List.replicate fl HandlerPollResult.pending ++
          HandlerPollResult.custom (ProtocolOutEvent.inbound ri) ::
          List.replicate m HandlerPollResult.pending,
          ({ h with state := ProtocolState.done } : Handler I O E))) ∧
    (h.state = ProtocolState.outbound (OutboundProtocolState.executing ⟨fl, ro⟩) →
      ∀ m, h.pollIter (fl + 1 + m) =
        Except.ok (List.replicate fl HandlerPollResult.pending ++
          HandlerPollResult.custom (ProtocolOutEvent.outbound ro) ::
          List.replicate m HandlerPollResult.pending,
          ({ h with state := ProtocolState.done } : Handler I O E))) ∧
    (h.state = ProtocolState.done →
      ∀ n, h.pollIter n =
        Except.ok (List.replicate n HandlerPollResult.pending, h)) ∧
    (∀ (e : ProtocolOutEvent I O E) (a b : Nat),
      countCustom (List.replicate a HandlerPollResult.pending ++
        HandlerPollResult.custom e :: List.replicate b HandlerPollResult.pending) = 1) ∧
    (∀ n, countCustom
      (List.replicate n (HandlerPollResult.pending : HandlerPollResult I O E)) = 0) := by
  refine ⟨?_, ?_, ?_, countCustom_once, countCustom_replicate_pending⟩
  · intro hs m
    have h1 := pollIter_executing_inbound fl fl ri h hs (Nat.le_refl fl)
    have hstep : Handler.poll
        ({ h with state :=
          (ProtocolState.inbound (InboundProtocolState.executing ⟨fl - fl, ri⟩)) } :
          Handler I O E) =
        Except.ok (HandlerPollResult.custom (ProtocolOutEvent.inbound ri),
          ({ h with state := ProtocolState.done } : Handler I O E)) := by
      simp [Handler.poll, Nat.sub_self]
    have hdone : Handler.poll ({ h with state := ProtocolState.done } : Handler I O E) =
        Except.ok (HandlerPollResult.pending,
          ({ h with state := ProtocolState.done } : Handler I O E)) :=
      poll_done _ rfl
    have h2 := pollIter_succ_of_poll _ _ _ _ _ m hstep
      (pollIter_of_fixpoint _ hdone m)
    have h3 := pollIter_add fl h _ _ _ _ (m + 1) h1 h2
    have harith : fl + 1 + m = fl + (m + 1) := by omega
    rw [harith]
    exact h3
  · intro hs m
    have h1 := pollIter_executing_outbound fl fl ro h hs (Nat.le_refl fl)
    have hstep : Handler.poll
        ({ h with state :=
          (ProtocolState.outbound (OutboundProtocolState.executing ⟨fl - fl, ro⟩)) } :
          Handler I O E) =
        Except.ok (HandlerPollResult.custom (ProtocolOutEvent.outbound ro),
          ({ h with state := ProtocolState.done } : Handler I O E)) := by
      simp [Handler.poll, Nat.sub_self]
    have hdone : Handler.poll ({ h with state := ProtocolState.done } : Handler I O E) =
        Except.ok (HandlerPollResult.pending,
          ({ h with state := ProtocolState.done } : Handler I O E)) :=
      poll_done _ rfl
    have h2 := pollIter_succ_of_poll _ _ _ _ _ m hstep
      (pollIter_of_fixpoint _ hdone m)
    have h3 := pollIter_add fl h _ _ _ _ (m + 1) h1 h2
    have harith : fl + 1 + m = fl + (m + 1) := by omega
    rw [harith]
    exact h3
  · intro hd n
    exact pollIter_of_fixpoint h (poll_done h hd) n

/-- Witness for C5: a handler running an inbound protocol that needs one
more poll delivers its outcome on the second poll and only Pending after. -/
theorem claim_C5_witness :
    Handler.pollIter (Handler.mk (ProtocolState.inbound
      (InboundProtocolState.executing ⟨1, RustResult.ok 42⟩)) [] : Handler Nat Nat Nat) 3 =
    Except.ok ([HandlerPollResult.pending,
      HandlerPollResult.custom (ProtocolOutEvent.inbound (RustResult.ok 42)),
      HandlerPollResult.pending],
      Handler.mk ProtocolState.done []) :=
  (claim_C5 Nat Nat Nat _ 1 (RustResult.ok 42) (RustResult.ok 0)).1 rfl 1

/-- C2 (amended): on a dial/substream-negotiation failure while an outbound
substream request is in flight, the source only logs (`inject_dial_upgrade_error`
is a no-op on the state): the execution is never retried (no further
substream request is emitted), but the failure is also never reported —
every subsequent poll yields Pending and the state never changes, so no
terminal outcome ever reaches the result channel. -/
theorem claim_C2 (I O E : Type) (h : Handler I O E) (f : OutboundProtocolFn O E)
    (hs : h.state =
      ProtocolState.outbound (OutboundProtocolState.gotFunctionRequestedSubstream f)) :
    h.injectDialUpgradeError = h ∧
    (∀ n, Handler.pollIter h.injectDialUpgradeError n =
      Except.ok (List.replicate n HandlerPollResult.pending, h)) := by
  refine ⟨rfl, ?_⟩
  intro n
  have hp : h.poll = Except.ok (HandlerPollResult.pending, h) := by
    simp [Handler.poll, hs]
  exact pollIter_of_fixpoint h hp n

/-- Witness for C2's amended theorem at a concrete handler. -/
theorem claim_C2_witness :
    Handler.pollIter (Handler.injectDialUpgradeError
      (Handler.mk (ProtocolState.outbound (OutboundProtocolState.gotFunctionRequestedSubstream
        (fun s => ⟨0, RustResult.ok s.stream⟩))) [] : Handler Nat Nat Nat)) 2 =
    Except.ok ([HandlerPollResult.pending, HandlerPollResult.pending],
      Handler.mk (ProtocolState.outbound (OutboundProtocolState.gotFunctionRequestedSubstream
        (fun s => ⟨0, RustResult.ok s.stream⟩))) []) :=
  (claim_C2 Nat Nat Nat _ (fun s => ⟨0, RustResult.ok s.stream⟩) rfl).2 2

/-- Counterexample to C2 as stated: submit an outbound request, poll (the
substream is requested), then deliver the dial upgrade error.  The handler is
left exactly where it was, and the next poll yields Pending with the handler
unchanged — a fixed point of poll — so the failure is never reported as a
terminal negative outcome through the handler's poll; it is swallowed
(beyond the log line). -/
theorem claim_C2_counterexample :
    Handler.injectEvent (Handler.new Nat Nat Nat [])
      (ProtocolInEvent.executeOutbound (fun s => ⟨0, RustResult.ok s.stream⟩)) =
      Except.ok (Handler.mk (ProtocolState.outbound
        (OutboundProtocolState.gotFunctionNeedSubstream
          (fun s => ⟨0, RustResult.ok s.stream⟩))) []) ∧
    Handler.poll (Handler.mk (ProtocolState.outbound
      (OutboundProtocolState.gotFunctionNeedSubstream
        (fun s => ⟨0, RustResult.ok s.stream⟩))) [] : Handler Nat Nat Nat) =
      Except.ok (HandlerPollResult.outboundSubstreamRequest [],
        Handler.mk (ProtocolState.outbound
          (OutboundProtocolState.gotFunctionRequestedSubstream
            (fun s => ⟨0, RustResult.ok s.stream⟩))) []) ∧
    Handler.injectDialUpgradeError (Handler.mk (ProtocolState.outbound
      (OutboundProtocolState.gotFunctionRequestedSubstream
        (fun s => ⟨0, RustResult.ok s.stream⟩))) [] : Handler Nat Nat Nat) =
      Handler.mk (ProtocolState.outbound
        (OutboundProtocolState.gotFunctionRequestedSubstream
          (fun s => ⟨0, RustResult.ok s.stream⟩))) [] ∧
    Handler.poll (Handler.mk (ProtocolState.outbound
      (OutboundProtocolState.gotFunctionRequestedSubstream
        (fun s => ⟨0, RustResult.ok s.stream⟩))) [] : Handler Nat Nat Nat) =
      Except.ok (HandlerPollResult.pending,
        Handler.mk (ProtocolState.outbound
          (OutboundProtocolState.gotFunctionRequestedSubstream
            (fun s => ⟨0, RustResult.ok s.stream⟩))) []) :=
  ⟨rfl, rfl, rfl, rfl⟩

/-- C4 (amended): arrival order commutes for the inbound direction —
substream-then-submit and submit-then-substream both end Executing `f s` —
and for the outbound direction the legal order submit-then-poll-then-substream
ends Executing `g s`; delivering an outbound substream before the request is
a fatal error (by construction the substream can only arrive after poll
requested it, which requires the function to be present). -/
theorem claim_C4 (I O E : Type) (info : List Nat) (f : InboundProtocolFn I E)
    (g : OutboundProtocolFn O E) (si : InboundSubstream) (so : OutboundSubstream) :
    ((Handler.new I O E info).injectFullyNegotiatedInbound si >>= fun h1 =>
      h1.injectEvent (ProtocolInEvent.executeInbound f)) =
      Except.ok (Handler.mk (ProtocolState.inbound
        (InboundProtocolState.executing (f si))) info) ∧
    ((Handler.new I O E info).injectEvent (ProtocolInEvent.executeInbound f) >>= fun h1 =>
      h1.injectFullyNegotiatedInbound si) =
      Except.ok (Handler.mk (ProtocolState.inbound
        (InboundProtocolState.executing (f si))) info) ∧
    ((Handler.new I O E info).injectEvent (ProtocolInEvent.executeOutbound g) >>= fun h1 =>
      h1.poll >>= fun pr => (pr.2).injectFullyNegotiatedOutbound so) =
      Except.ok (Handler.mk (ProtocolState.outbound
        (OutboundProtocolState.executing (g so))) info) ∧
    (Handler.new I O E info).injectFullyNegotiatedOutbound so =
      Except.error "Illegal state, receiving substream means it was requested." :=
  ⟨rfl, rfl, rfl, rfl⟩

/-- Counterexample to C4 as stated: for the outbound direction the two
arrival orders do not commute — delivering the substream before the request
panics in the source (modelled as an error), while request-then-poll-then-
substream reaches the Executing state. -/
theorem claim_C4_counterexample :
    Handler.injectFullyNegotiatedOutbound (Handler.new Nat Nat Nat []) ⟨3⟩ =
      Except.error "Illegal state, receiving substream means it was requested." ∧
    ((Handler.new Nat Nat Nat []).injectEvent
      (ProtocolInEvent.executeOutbound (fun s => ⟨0, RustResult.ok s.stream⟩)) >>= fun h1 =>
      h1.poll >>= fun pr => (pr.2).injectFullyNegotiatedOutbound ⟨3⟩) =
      Except.ok (Handler.mk (ProtocolState.outbound
        (OutboundProtocolState.executing ⟨0, RustResult.ok 3⟩)) []) :=
  ⟨rfl, rfl⟩

/-- C10 (implicit): no Peer Coordinator operation removes a peer key from the
connected-peers map; a connection-closed notification for an unknown peer
inserts an empty entry; and the dispatch gate is key presence — a queued
head request for a peer whose key is present is dispatched regardless of
its address list. -/
theorem claim_C10 (I O E : Type) (b : Behaviour I O E) (op : BehaviourOp I O E)
    (p : PeerId) (a : Multiaddr) (e : ProtocolInEvent I O E)
    (rest : List (PeerId × ProtocolInEvent I O E)) :
    (containsKey b.connectedPeers p = true →
      containsKey (b.step op).connectedPeers p = true) ∧
    (containsKey b.connectedPeers p = false →
      lookupEntry (b.injectConnectionClosed p a).connectedPeers p = Option.some []) ∧
    (b.protocolInEvents = (p, e) :: rest →
      containsKey b.connectedPeers p = true →
      Behaviour.poll b = (Option.some (NetworkBehaviourAction.notifyHandler p e),
        ({ b with protocolInEvents := rest } : Behaviour I O E))) := by
  refine ⟨?_, ?_, ?_⟩
  · intro hb
    rw [step_connectedPeers_key, hb]
    rfl
  · intro hb
    have hnone : lookupEntry b.connectedPeers p = Option.none := by
      rcases hlk : lookupEntry b.connectedPeers p with _ | v
      · rfl
      · simp [containsKey, hlk] at hb
    simp [Behaviour.injectConnectionClosed, lookup_modifyEntryOrDefault_self, hnone]
  · intro hin hk
    exact poll_dispatch b p e rest hin hk

/-- Witness for C10: a close notification for a never-connected peer creates
its (empty) entry, and a peer whose entry is the empty address list is still
dispatched to. -/
theorem claim_C10_witness :
    lookupEntry ((Behaviour.new Nat Nat Nat []).injectConnectionClosed 5 1).connectedPeers 5 =
      Option.some [] ∧
    Behaviour.poll (Behaviour.mk
      [(5, ProtocolInEvent.executeInbound (fun _ => ⟨0, RustResult.ok 0⟩))] [] [(5, [])] []
      : Behaviour Nat Nat Nat) =
      (Option.some (NetworkBehaviourAction.notifyHandler 5
        (ProtocolInEvent.executeInbound (fun _ => ⟨0, RustResult.ok 0⟩))),
        Behaviour.mk [] [] [(5, [])] []) :=
  ⟨(claim_C10 Nat Nat Nat (Behaviour.new Nat Nat Nat []) BehaviourOp.poll 5 1
      (ProtocolInEvent.executeInbound (fun _ => ⟨0, RustResult.ok 0⟩)) []).2.1 rfl,
   (claim_C10 Nat Nat Nat (Behaviour.mk
      [(5, ProtocolInEvent.executeInbound (fun _ => ⟨0, RustResult.ok 0⟩))] [] [(5, [])] [])
      BehaviourOp.poll 5 1
      (ProtocolInEvent.executeInbound (fun _ => ⟨0, RustResult.ok 0⟩)) []).2.2 rfl rfl⟩

/-- C1 (amended): a request is never dispatched for a peer before some
connectivity notification (connection-established or connection-closed) for
that peer has arrived: dispatch is gated on presence of the peer's key in
the connected-peers map, which only notifications create; while the key is
absent, each poll re-enqueues the head request at the tail.  (Key presence
is not the same as having an active connection: a close notification also
creates the key, and nothing removes it — see the counterexample.) -/
theorem claim_C1 (I O E : Type) (info : List Nat) (ops : List (BehaviourOp I O E))
    (p : PeerId) (b : Behaviour I O E) (q : PeerId) (e : ProtocolInEvent I O E)
    (rest : List (PeerId × ProtocolInEvent I O E)) :
    ((∀ op ∈ ops, op.notifiesPeer p = false) →
      containsKey (Behaviour.run (Behaviour.new I O E info) ops).connectedPeers p = false) ∧
    ((Behaviour.poll b).1 =
        Option.some (NetworkBehaviourAction.notifyHandler q e) →
      containsKey b.connectedPeers q = true) ∧
    (b.protocolInEvents = (q, e) :: rest →
      containsKey b.connectedPeers q = false →
      (Behaviour.poll b).2.protocolInEvents = rest ++ [(q, e)]) := by
  refine ⟨?_, poll_dispatch_requires_key b q e, ?_⟩
  · intro hops
    exact run_key_false ops (Behaviour.new I O E info) p rfl hops
  · intro hin hk
    rw [poll_requeue b q e rest hin hk, pollOutEvents_protocolInEvents]

/-- Witness for C1's amended theorem: a queued request for a peer with no
connectivity notification is still queued (key absent) and gets re-enqueued
by poll. -/
theorem claim_C1_witness :
    containsKey (Behaviour.run (Behaviour.new Nat Nat Nat [])
      [BehaviourOp.doProtocolListener 5 (fun _ => ⟨0, RustResult.ok 0⟩),
       BehaviourOp.poll]).connectedPeers 5 = false ∧
    (Behaviour.poll (Behaviour.mk
      [(5, ProtocolInEvent.executeInbound (fun _ => ⟨0, RustResult.ok 0⟩))] [] [] []
      : Behaviour Nat Nat Nat)).2.protocolInEvents =
      [] ++ [(5, ProtocolInEvent.executeInbound (fun _ => ⟨0, RustResult.ok 0⟩))] :=
  ⟨(claim_C1 Nat Nat Nat []
      [BehaviourOp.doProtocolListener 5 (fun _ => ⟨0, RustResult.ok 0⟩), BehaviourOp.poll]
      5 (Behaviour.new Nat Nat Nat []) 0
      (ProtocolInEvent.executeInbound (fun _ => ⟨0, RustResult.ok 0⟩)) []).1
      (by intro op hop; fin_cases hop <;> rfl),
   (claim_C1 Nat Nat Nat [] [] 5
      (Behaviour.mk [(5, ProtocolInEvent.executeInbound (fun _ => ⟨0, RustResult.ok 0⟩))]
        [] [] []) 5
      (ProtocolInEvent.executeInbound (fun _ => ⟨0, RustResult.ok 0⟩)) []).2.2 rfl rfl⟩

/-- Counterexample to C1 as stated: enqueue a request for peer 5, establish a
connection at address 9, then close it.  The peer now has no active
connection (its address list is empty), yet the next poll dispatches the
request to the handler, because the dispatch gate is key presence and the
key survives the close. -/
theorem claim_C1_counterexample :
    Behaviour.addressesOfPeer (Behaviour.run (Behaviour.new Nat Nat Nat [])
      [BehaviourOp.doProtocolListener 5 (fun _ => ⟨0, RustResult.ok 0⟩),
       BehaviourOp.connectionEstablished 5 9,
       BehaviourOp.connectionClosed 5 9]) 5 = [] ∧
    (Behaviour.poll (Behaviour.run (Behaviour.new Nat Nat Nat [])
      [BehaviourOp.doProtocolListener 5 (fun _ => ⟨0, RustResult.ok 0⟩),
       BehaviourOp.connectionEstablished 5 9,
       BehaviourOp.connectionClosed 5 9])).1 =
      Option.some (NetworkBehaviourAction.notifyHandler 5
        (ProtocolInEvent.executeInbound (fun _ => ⟨0, RustResult.ok 0⟩))) :=
  ⟨rfl, rfl⟩

/-- C6 (amended): a connection-established notification appends the address
to the peer's record (other peers unchanged); a connection-closed
notification removes every occurrence of that address by value (`retain`),
not just one, leaving other peers unchanged; in particular for a record
`[a1, a2]` with `a1 ≠ a2`, closing `a1` leaves `[a2]`. -/
theorem claim_C6 (I O E : Type) (b : Behaviour I O E) (p q : PeerId)
    (a a1 a2 : Multiaddr) :
    ((b.injectConnectionEstablished p a).addressesOfPeer p =
      b.addressesOfPeer p ++ [a]) ∧
    ((b.injectConnectionClosed p a).addressesOfPeer p =
      (b.addressesOfPeer p).filter (fun x => x ≠ a)) ∧
    (q ≠ p →
      (b.injectConnectionEstablished p a).addressesOfPeer q = b.addressesOfPeer q) ∧
    (q ≠ p →
      (b.injectConnectionClosed p a).addressesOfPeer q = b.addressesOfPeer q) ∧
    (a1 ≠ a2 → b.addressesOfPeer p = [a1, a2] →
      (b.injectConnectionClosed p a1).addressesOfPeer p = [a2]) := by
  have hest : (b.injectConnectionEstablished p a).addressesOfPeer p =
      b.addressesOfPeer p ++ [a] := by
    simp [Behaviour.injectConnectionEstablished, Behaviour.addressesOfPeer,
      lookup_modifyEntryOrDefault_self]
  have hclosed : ∀ x : Multiaddr, (b.injectConnectionClosed p x).addressesOfPeer p =
      (b.addressesOfPeer p).filter (fun y => y ≠ x) := by
    intro x
    simp [Behaviour.injectConnectionClosed, Behaviour.addressesOfPeer,
      lookup_modifyEntryOrDefault_self]
  refine ⟨hest, hclosed a, ?_, ?_, ?_⟩
  · intro hqp
    simp [Behaviour.injectConnectionEstablished, Behaviour.addressesOfPeer,
      lookup_modifyEntryOrDefault_other b.connectedPeers p q _ (fun hc => hqp hc.symm)]
  · intro hqp
    simp [Behaviour.injectConnectionClosed, Behaviour.addressesOfPeer,
      lookup_modifyEntryOrDefault_other b.connectedPeers p q _ (fun hc => hqp hc.symm)]
  · intro h12 hrec
    rw [hclosed a1, hrec]
    simp [List.filter, h12.symm]

/-- Witness for C6: with record `[1, 2]` for peer 5, closing address 1
leaves `[2]`. -/
theorem claim_C6_witness :
    Behaviour.addressesOfPeer (Behaviour.injectConnectionClosed
      (((Behaviour.new Nat Nat Nat []).injectConnectionEstablished 5 1).injectConnectionEstablished
        5 2) 5 1) 5 = [2] :=
  (claim_C6 Nat Nat Nat
    (((Behaviour.new Nat Nat Nat []).injectConnectionEstablished 5 1).injectConnectionEstablished
      5 2) 5 0 0 1 2).2.2.2.2 (by decide) rfl

/-- Counterexample to C6 as stated: with a duplicated address (peer 5
connected twice through address 9, record `[9, 9]`), one close notification
removes both occurrences — the record becomes `[]`, not `[9]` as
remove-exactly-one-occurrence would give. -/
theorem claim_C6_counterexample :
    Behaviour.addressesOfPeer (Behaviour.injectConnectionClosed
      (((Behaviour.new Nat Nat Nat []).injectConnectionEstablished 5 9).injectConnectionEstablished
        5 9) 5 9) 5 = [] ∧
    Behaviour.addressesOfPeer (Behaviour.injectConnectionClosed
      (((Behaviour.new Nat Nat Nat []).injectConnectionEstablished 5 9).injectConnectionEstablished
        5 9) 5 9) 5 ≠ [9] :=
  ⟨rfl, by decide⟩

/-- C7 (amended): each poll examines at most one pending request, the head of
the pending-requests queue — if its peer's key is absent, the head is moved
to the back and the head of the outbound-results queue (if any) is yielded
instead; if present, the head is dispatched; with both queues giving nothing
the call yields no progress.  (The re-enqueue-at-tail step can reorder two
requests of the same peer that are both queued while the peer is
disconnected, so same-peer submission order is preserved only as long as the
peer stays connected — see the counterexample.) -/
theorem claim_C7 (I O E : Type) (b : Behaviour I O E) (p q : PeerId)
    (e : ProtocolInEvent I O E) (oe : ProtocolOutEvent I O E)
    (rest : List (PeerId × ProtocolInEvent I O E))
    (orest : List (PeerId × ProtocolOutEvent I O E)) :
    (b.protocolInEvents = (p, e) :: rest →
      containsKey b.connectedPeers p = true →
      Behaviour.poll b = (Option.some (NetworkBehaviourAction.notifyHandler p e),
        ({ b with protocolInEvents := rest } : Behaviour I O E))) ∧
    (b.protocolInEvents = (p, e) :: rest →
      containsKey b.connectedPeers p = false →
      b.protocolOutEvents = (q, oe) :: orest →
      Behaviour.poll b = (Option.some (NetworkBehaviourAction.generateEvent
        (toBehaviourOutEvent q oe)),
        ({ b with protocolInEvents := rest ++ [(p, e)], protocolOutEvents := orest } :
          Behaviour I O E))) ∧
    (b.protocolInEvents = (p, e) :: rest →
      containsKey b.connectedPeers p = false →
      b.protocolOutEvents = [] →
      Behaviour.poll b = (Option.none,
        ({ b with protocolInEvents := rest ++ [(p, e)] } : Behaviour I O E))) ∧
    (b.protocolInEvents = [] →
      b.protocolOutEvents = (q, oe) :: orest →
      Behaviour.poll b = (Option.some (NetworkBehaviourAction.generateEvent
        (toBehaviourOutEvent q oe)),
        ({ b with protocolOutEvents := orest } : Behaviour I O E))) ∧
    (b.protocolInEvents = [] → b.protocolOutEvents = [] →
      Behaviour.poll b = (Option.none, b)) := by
  refine ⟨poll_dispatch b p e rest, ?_, ?_, ?_, ?_⟩
  · intro hin hk hout
    rw [poll_requeue b p e rest hin hk]
    exact pollOutEvents_cons
      ({ b with protocolInEvents := rest ++ [(p, e)] } : Behaviour I O E) q oe orest hout
  · intro hin hk hout
    rw [poll_requeue b p e rest hin hk]
    exact pollOutEvents_nil
      ({ b with protocolInEvents := rest ++ [(p, e)] } : Behaviour I O E) hout
  · intro hin hout
    rw [poll_empty_queue b hin, pollOutEvents_cons b q oe orest hout]
  · intro hin hout
    rw [poll_empty_queue b hin, pollOutEvents_nil b hout]

/-- Witness for C7: a connected head request is dispatched; with an empty
pending queue, a queued outcome for peer 4 is yielded as an application
event. -/
theorem claim_C7_witness :
    Behaviour.poll (Behaviour.mk
      [(5, ProtocolInEvent.executeInbound (fun _ => ⟨0, RustResult.ok 0⟩))]
      [] [(5, [9])] [] : Behaviour Nat Nat Nat) =
      (Option.some (NetworkBehaviourAction.notifyHandler 5
        (ProtocolInEvent.executeInbound (fun _ => ⟨0, RustResult.ok 0⟩))),
        Behaviour.mk [] [] [(5, [9])] []) ∧
    Behaviour.poll (Behaviour.mk []
      [(4, ProtocolOutEvent.outbound (RustResult.ok 7))] [] []
      : Behaviour Nat Nat Nat) =
      (Option.some (NetworkBehaviourAction.generateEvent
        (BehaviourOutEvent.outbound 4 (RustResult.ok 7))),
        Behaviour.mk [] [] [] []) :=
  ⟨(claim_C7 Nat Nat Nat (Behaviour.mk
      [(5, ProtocolInEvent.executeInbound (fun _ => ⟨0, RustResult.ok 0⟩))]
      [] [(5, [9])] []) 5 4
      (ProtocolInEvent.executeInbound (fun _ => ⟨0, RustResult.ok 0⟩))
      (ProtocolOutEvent.outbound (RustResult.ok 7)) [] []).1 rfl rfl,
   (claim_C7 Nat Nat Nat (Behaviour.mk []
      [(4, ProtocolOutEvent.outbound (RustResult.ok 7))] [] []) 5 4
      (ProtocolInEvent.executeInbound (fun _ => ⟨0, RustResult.ok 0⟩))
      (ProtocolOutEvent.outbound (RustResult.ok 7)) [] []).2.2.2.1 rfl rfl⟩

/-- Counterexample to C7's same-peer ordering sentence: peer 5 enqueues the
listener (inbound) request first and the dialer (outbound) request second;
one poll while 5 is disconnected moves the inbound head behind the outbound
request; after 5 connects, the outbound request is dispatched first and the
inbound one second — the two requests for the same peer are delivered in the
opposite of submission order. -/
theorem claim_C7_counterexample :
    actionDispatchesOutbound ((Behaviour.poll (Behaviour.run
      (Behaviour.new Nat Nat Nat [])
      [BehaviourOp.doProtocolListener 5 (fun _ => ⟨0, RustResult.ok 1⟩),
       BehaviourOp.doProtocolDialer 5 (fun _ => ⟨0, RustResult.ok 2⟩),
       BehaviourOp.poll,
       BehaviourOp.connectionEstablished 5 9])).1) = true ∧
    actionDispatchesInbound ((Behaviour.poll (Behaviour.run
      (Behaviour.new Nat Nat Nat [])
      [BehaviourOp.doProtocolListener 5 (fun _ => ⟨0, RustResult.ok 1⟩),
       BehaviourOp.doProtocolDialer 5 (fun _ => ⟨0, RustResult.ok 2⟩),
       BehaviourOp.poll,
       BehaviourOp.connectionEstablished 5 9])).1) = false ∧
    actionDispatchesInbound ((Behaviour.poll (Behaviour.poll (Behaviour.run
      (Behaviour.new Nat Nat Nat [])
      [BehaviourOp.doProtocolListener 5 (fun _ => ⟨0, RustResult.ok 1⟩),
       BehaviourOp.doProtocolDialer 5 (fun _ => ⟨0, RustResult.ok 2⟩),
       BehaviourOp.poll,
       BehaviourOp.connectionEstablished 5 9])).2).1) = true :=
  ⟨rfl, rfl, rfl⟩

end NMessage
